import Mathlib

/-!
Shallow embedding of `scanbro.py`: the scan-acquisition / batch / pipeline /
rename / cleanup engine of the scanbro tool, together with the naming helpers
it is built on.  Filesystem contents, external process spawns, file removals
and file moves are tracked explicitly in a state record; interactive input is
an explicit list of lines; the page count produced by the physical scanner on
each invocation is an explicit environment function.
-/

namespace Scanbro

/-- Index of the last occurrence of a character in a character list
(`str.rfind(c)` on the characters of a Python string). -/
def lastIndexOf : List Char → Char → Option Nat
  | [], _ => none
  | ch :: rest, c =>
    match lastIndexOf rest c with
    | some i => some (i + 1)
    | none => if ch = c then some 0 else none

/-- Split a path's characters at the final slash: directory part
(slash included) and the final component (`PurePath.name`). -/
def splitDirChars (p : List Char) : List Char × List Char :=
  match lastIndexOf p '/' with
  | none => ([], p)
  | some i => (p.take (i + 1), p.drop (i + 1))

/-- The `.`-suffix of a final path component, following `pathlib`:
the part from the last dot on, provided that dot is neither the first
nor the last character of the name; otherwise empty. -/
def suffixChars (name : List Char) : List Char :=
  match lastIndexOf name '.' with
  | none => []
  | some i => if 0 < i ∧ i < name.length - 1 then name.drop i else []

/-- `PurePath(p).with_suffix(suffix)` on characters: drop the old suffix of
the final component and append the new one (callers always pass a new suffix
beginning with a dot, as `pathlib` requires). -/
def withSuffixChars (p suffix : List Char) : List Char :=
  let d := (splitDirChars p).1
  let name := (splitDirChars p).2
  let old := suffixChars name
  d ++ name.take (name.length - old.length) ++ suffix

/-- `PurePath(filename).suffix` as a string. -/
def pathSuffix (filename : String) : String :=
  String.mk (suffixChars (splitDirChars filename.data).2)

/-- Source `has_suffix(filename, suffix)`: the path's suffix equals
`"." + suffix`. -/
def has_suffix (filename suffix : String) : Bool :=
  pathSuffix filename = "." ++ suffix

/-- Source `with_suffix(filename, suffix)`:
`str(PurePath(filename).with_suffix("." + suffix))`. -/
def with_suffix (filename suffix : String) : String :=
  String.mk (withSuffixChars filename.data ('.' :: suffix.data))

/-- Source `with_presuffix(filename, presuffix)`: insert `presuffix` as an
extra extension component before the current extension. -/
def with_presuffix (filename presuffix : String) : String :=
  with_suffix filename (presuffix ++ pathSuffix filename)

/-- Python `prototype % index` for the prototypes used here: substitute the
first `%d` by the decimal rendering of `index`. -/
def formatPercentD : List Char → Nat → List Char
  | '%' :: 'd' :: rest, n => (Nat.repr n).data ++ rest
  | c :: rest, n => c :: formatPercentD rest n
  | [], _ => []

/-- String wrapper for `formatPercentD`. -/
def fmtD (prototype : String) (index : Nat) : String :=
  String.mk (formatPercentD prototype.data index)

/-- Python `prototype.find('%d') != -1`: the string contains `%d`. -/
def containsPercentD : List Char → Bool
  | '%' :: 'd' :: _ => true
  | _ :: rest => containsPercentD rest
  | [] => false

/-- Python `s.startswith(pre)`, computed on the character lists (the
byte-position-based core `String.startsWith` does not reduce in proofs). -/
def pyStartsWith (s pre : String) : Bool :=
  pre.data.isPrefixOf s.data

/-- Python `s[0]` for the nonempty strings it is applied to. -/
def firstChar (s : String) : Char :=
  s.data.headD ' '

/-- Largest index at which `sep` occurs as a substring of `s`
(the split point of Python `str.rpartition`). -/
def lastSubstrIdx (s sep : List Char) : Option Nat :=
  ((List.range (s.length + 1)).filter (fun i => sep.isPrefixOf (s.drop i))).getLast?

/-- Python `s.rpartition(sep)`: split at the last occurrence of `sep` into
(head, sep, tail); if `sep` does not occur, `("", "", s)`. -/
def rpartition (s sep : String) : String × String × String :=
  match lastSubstrIdx s.data sep.data with
  | none => ("", "", s)
  | some i =>
    (String.mk (s.data.take i), sep, String.mk (s.data.drop (i + sep.data.length)))

/-- Mutable world state threaded through the engine: the set of existing
files, plus logs of every file removal, external process spawn (by binary
name, in order) and file move performed. -/
structure St where
  fs : List String
  removed : List String
  spawns : List String
  moved : List (String × String)
  deriving Repr, DecidableEq

/-- Add a file to the filesystem (no duplicates: writing an existing file
leaves it existing). -/
def addFile (fs : List String) (f : String) : List String :=
  if fs.contains f then fs else fs ++ [f]

/-- Effect of `os.remove(f)`: the file disappears and the removal is logged. -/
def removeFile (st : St) (f : String) : St :=
  { st with fs := st.fs.erase f, removed := st.removed ++ [f] }

/-- Effect of `shutil.move(src, dst)`. -/
def moveEffect (st : St) (src dst : String) : St :=
  { st with fs := addFile (st.fs.erase src) dst, moved := st.moved ++ [(src, dst)] }

/-- External environment: how many pages the physical scanner feeds for the
n-th scanner invocation of the run (counted by previous spawns). -/
structure Env where
  device : Nat → Nat

/-- The scanner's live configuration (`self.config`): the keys the engine
reads and the batch menu mutates.  `none` stands for the key being unset or
set to Python `None`. -/
structure Cfg where
  source : Option String
  papersize : Option String
  deriving Repr, DecidableEq

/-- The fields of a `Scanner` instance the engine reads. -/
structure ScannerM where
  name : String
  binary : String
  filetype : String
  deriving Repr, DecidableEq

/-- Errors: each constructor stands for one `raise`/`assert` site of the
source (or for a Python runtime error the source can hit). -/
inductive Err where
  /-- an `assert` statement failed -/
  | assertionError
  /-- `"expected output files from scanner, found nothing"` -/
  | scanFoundNothing
  /-- `"cannot trim the only file scanned"` -/
  | cannotTrimOnly
  /-- `"trim expects at least 4 scan files"` -/
  | trimTooFew
  /-- `"abort by user-request"` -/
  | userAbort
  /-- Python `UnboundLocalError` for the local `prototype` in `scanbro` -/
  | unboundLocalPrototype
  /-- `input()` would block forever: the interactive input script ran out -/
  | outOfInput
  /-- `input_files[0]` on an empty list -/
  | indexError
  /-- `"cannot find executable <binary>"` from `Processor.__init__` -/
  | missingExecutable (binary : String)
  deriving Repr, DecidableEq

/-- `Scanner.is_adf`: false iff the `source` config key is set to
`"flatbed"`. -/
def isAdfCfg (cfg : Cfg) : Bool :=
  !(cfg.source == some "flatbed")

/-- `Scanner.assert_output_format`: the prototype contains `%d` iff the
scanner is in ADF mode. -/
def assertOutputFormat (isAdf : Bool) (prototype : String) : Bool :=
  if isAdf then containsPercentD prototype.data else !containsPercentD prototype.data

/-- The `while os.path.exists(prototype % index)` loop of `Scanner.output`,
collecting the contiguous run of numbered pages from `index` upward.  `fuel`
totalizes the unbounded Python loop; every use supplies enough fuel for the
run that exists on the filesystem. -/
def outputLoop (fs : List String) (prototype : String) : Nat → Nat → List String
  | 0, _ => []
  | fuel + 1, index =>
    if fs.contains (fmtD prototype index) then
      fmtD prototype index :: outputLoop fs prototype fuel (index + 1)
    else []

/-- `Scanner.output(prototype)`: for ADF, the contiguous run of existing
pages numbered from 1; for flatbed, a singleton iff the literal path
exists. -/
def Scanner.output (isAdf : Bool) (fs : List String) (prototype : String) (fuel : Nat) :
    List String :=
  if isAdf then outputLoop fs prototype fuel 1
  else if fs.contains prototype then [prototype] else []

/-- Effect of the real scanner invocation `scanner.process(None, proto)`
(assumed to exit 0): in ADF mode the device writes pages `proto % 1` ..
`proto % m` where `m` is the page count the environment feeds this
invocation; in flatbed mode the literal output file is written.  The spawn
is logged. -/
def spawnScanner (env : Env) (sc : ScannerM) (isAdf : Bool) (prototype : String) (st : St) : St :=
  let pages :=
    if isAdf then (List.range (env.device st.spawns.length)).map (fun i => fmtD prototype (i + 1))
    else [prototype]
  { st with fs := pages.foldl addFile st.fs, spawns := st.spawns ++ [sc.binary] }

/-- The nested `scan_once(output_file)` of `Scanner.scan`.  Faithful points:
`scanner.process(None, output_file)` is called without a `dryrun` argument,
so the spawn is unconditionally real; and the `trim = False` assignment of
the reuse branch binds a variable local to `scan_once` and therefore does
not change the enclosing `trim` flag, so nothing trim-related happens here.
The identical `assert_output_format` check of `exists`/`output` is performed
once.  The `output` fuel `|fs| + 1` covers any contiguous page run, since
distinctly numbered page names are distinct files. -/
def scan_once (env : Env) (sc : ScannerM) (clobber : Bool) (cfg : Cfg)
    (output_file : String) (st : St) : Except Err (List String) × St :=
  let isAdf := isAdfCfg cfg
  let of := if isAdf then with_presuffix output_file "%d" else output_file
  if assertOutputFormat isAdf of then
    let ex := if isAdf then st.fs.contains (fmtD of 1) else st.fs.contains of
    let st1 := if !ex || clobber then spawnScanner env sc isAdf of st else st
    (.ok (Scanner.output isAdf st1.fs of (st1.fs.length + 1)), st1)
  else (.error .assertionError, st)

/-- The inner batch menu loop: read lines until one is an unambiguous answer.
An empty or unrecognized line re-prompts; a prefix of `source`/`papersize`
reads one more line into the live config and re-prompts; a prefix of
`continue`/`finish` leaves the menu with that answer; a prefix of `abort`
raises.  An exhausted input script models an `input()` that never returns. -/
def menuLoop : List String → Cfg → Except Err (String × Cfg × List String)
  | [], _ => .error .outOfInput
  | answer :: rest, cfg =>
    if answer = "" then menuLoop rest cfg
    else if pyStartsWith "source" answer then
      match rest with
      | [] => .error .outOfInput
      | v :: rest2 => menuLoop rest2 { cfg with source := some v }
    else if pyStartsWith "papersize" answer then
      match rest with
      | [] => .error .outOfInput
      | v :: rest2 => menuLoop rest2 { cfg with papersize := some v }
    else if pyStartsWith "continue" answer then .ok (answer, cfg, rest)
    else if pyStartsWith "finish" answer then .ok (answer, cfg, rest)
    else if pyStartsWith "abort" answer then .error .userAbort
    else menuLoop rest cfg

/-- The `while True` batch loop of `Scanner.scan`: scan into a batch-tagged
prototype, append to the accumulated list, run the menu, and stop when the
chosen answer starts with `f`.  Each iteration consumes at least one input
line, so fuel `|inputs| + 1` makes the fuel cutoff unreachable before the
input script itself runs out. -/
def batchLoop (env : Env) (sc : ScannerM) (clobber : Bool) (output_file : String) :
    Nat → Nat → Cfg → List String → List String → St → Except Err (List String) × St
  | 0, _, _, _, _, st => (.error .outOfInput, st)
  | fuel + 1, iteration, cfg, inputs, acc, st =>
    let iter := iteration + 1
    let batch_file := with_presuffix output_file ("batch-" ++ Nat.repr iter)
    match scan_once env sc clobber cfg batch_file st with
    | (.error e, st1) => (.error e, st1)
    | (.ok batch_output, st1) =>
      let acc1 := acc ++ batch_output
      match menuLoop inputs cfg with
      | .error e => (.error e, st1)
      | .ok (answer, cfg1, inputs1) =>
        if firstChar answer = 'f' then (.ok acc1, st1)
        else batchLoop env sc clobber output_file fuel iter cfg1 inputs1 acc1 st1

/-- The acquisition part of `Scanner.scan` (everything between the
`with_suffix` normalization and the `n == 0` check): either the batch loop
or a single `scan_once`.  The `trim` flag is not read anywhere in this part
of the source. -/
def scanAcquire (env : Env) (sc : ScannerM) (cfg : Cfg) (output_file : String)
    (clobber batch : Bool) (inputs : List String) (st : St) :
    Except Err (List String) × St :=
  if batch then batchLoop env sc clobber output_file (inputs.length + 1) 0 cfg inputs [] st
  else scan_once env sc clobber cfg output_file st

/-- `Scanner.scan(output_file, clobber, trim, batch, dryrun)`.  The `dryrun`
parameter is accepted and, as in the source, never read: `scan_once` spawns
the scanner for real and the trim removal below runs unconditionally.
The source reads the module-level `scanner` binding, which at the entry
point is the scanner passed here. -/
def Scanner.scan (env : Env) (sc : ScannerM) (cfg : Cfg) (output_file0 : String)
    (clobber trim batch dryrun : Bool) (inputs : List String) (st : St) :
    Except Err (List String) × St :=
  let output_file := with_suffix output_file0 sc.filetype
  match scanAcquire env sc cfg output_file clobber batch inputs st with
  | (.error e, st1) => (.error e, st1)
  | (.ok scanned_files, st1) =>
    let n := scanned_files.length
    if n = 0 then (.error .scanFoundNothing, st1)
    else if trim then
      if n = 1 then (.error .cannotTrimOnly, st1)
      else if n < 4 then (.error .trimTooFew, st1)
      else
        let trim_file := scanned_files.getLast?.getD ""
        (.ok scanned_files.dropLast, removeFile st1 trim_file)
    else (.ok scanned_files, st1)

/-- The fields of a pipeline `Processor` the engine reads: binary name,
produced file type, and the input/output arity capability flags. -/
structure Stage where
  binary : String
  filetype : String
  multiple_in : Bool
  multiple_out : Bool
  deriving Repr, DecidableEq

/-- `Processor.suffix(file)`:
`with_suffix(file, self.binary + '.' + self.filetype)`. -/
def Stage.suffix (p : Stage) (file : String) : String :=
  with_suffix file (p.binary ++ "." ++ p.filetype)

/-- `Processor.process(input, output, dryrun)` for a pipeline stage, with the
external tool assumed to exit 0: when not a dry run, the stage's binary is
spawned and its output file comes into existence. -/
def Stage.processEffect (p : Stage) (output_file : String) (dryrun : Bool) (st : St) : St :=
  if dryrun then st
  else { st with fs := addFile st.fs output_file, spawns := st.spawns ++ [p.binary] }

/-- The intermediate-cleanup block of a `scanbro` pipeline step: the `rm` of
every input file, performed only when not a dry run. -/
def removeInputFiles (dryrun : Bool) (files : List String) (st : St) : St :=
  if dryrun then st else files.foldl removeFile st

/-- One-per-file fan-out of a single-input stage: build each output name with
the stage's suffix and process each file in order, as the `for in_file in
input_files` loop does. -/
def fanOut (p : Stage) (dryrun : Bool) : List String → St → List String × St
  | [], st => ([], st)
  | in_file :: rest, st =>
    let out_file := p.suffix in_file
    let st1 := p.processEffect out_file dryrun st
    let (outs, st2) := fanOut p dryrun rest st1
    (out_file :: outs, st2)

/-- The `for p in pipeline` loop of `scanbro`.  `stage` is the running stage
counter and `protoVar` the Python local variable `prototype`: it is only
assigned in the single-input branch, and the many-input branch's log line
reads it, so reading it before any single-input stage ran raises
`UnboundLocalError`. -/
def pipelineLoop (clean : Nat) (dryrun : Bool) :
    List Stage → Nat → Option String → List String → St → Except Err (List String) × St
  | [], _, _, input_files, st => (.ok input_files, st)
  | p :: rest, stage, protoVar, input_files, st =>
    let stage1 := stage + 1
    match input_files with
    | [] => (.error .indexError, st)
    | first :: _ =>
      if p.multiple_in then
        if p.multiple_out then (.error .assertionError, st)
        else
          let part := rpartition first ".1"
          let out := p.suffix (part.1 ++ part.2.2)
          match protoVar with
          | none => (.error .unboundLocalPrototype, st)
          | some _ =>
            let st1 := p.processEffect out dryrun st
            let st2 := if 1 < stage1 ∧ 0 < clean then removeInputFiles dryrun input_files st1 else st1
            pipelineLoop clean dryrun rest stage1 protoVar [out] st2
      else
        let prototype := p.suffix first
        let (output_files, st1) := fanOut p dryrun input_files st
        let st2 := if 1 < stage1 ∧ 0 < clean then removeInputFiles dryrun input_files st1 else st1
        pipelineLoop clean dryrun rest stage1 (some prototype) output_files st2

/-- The nested `move_file` of `scanbro`: the name is recorded in
`final_output` unconditionally, the `shutil.move` happens only when not a
dry run. -/
def move_file (dryrun : Bool) (st : St) (file output_file : String) : St :=
  if dryrun then st else moveEffect st file output_file

/-- The indexed rename loop of `scanbro` for several surviving files:
file number `index + 1` is moved to
`with_suffix(output_name, str(index + 1) + '.' + final_suffix)`. -/
def renameMany (output_name final_suffix : String) (dryrun : Bool) :
    List String → Nat → St → List String × St
  | [], _, st => ([], st)
  | file :: rest, index, st =>
    let index1 := index + 1
    let output_file := with_suffix output_name (Nat.repr index1 ++ "." ++ final_suffix)
    let st1 := move_file dryrun st file output_file
    let (outs, st2) := renameMany output_name final_suffix dryrun rest index1 st1
    (output_file :: outs, st2)

/-- The final-rename block of `scanbro`: a single surviving file goes to
`with_suffix(output_name, final_suffix)` without an index, several surviving
files go through the indexed loop. -/
def renamePhase (output_name final_suffix : String) (dryrun : Bool)
    (input_files : List String) (st : St) : List String × St :=
  if input_files.length = 1 then
    let output_file := with_suffix output_name final_suffix
    ([output_file], move_file dryrun st (input_files.headD "") output_file)
  else renameMany output_name final_suffix dryrun input_files 0 st

/-- The per-file body of the final cleanup loop of `scanbro`: assert the file
is not part of the final output, then remove it (removal suppressed on a dry
run). -/
def cleanupLoop (dryrun : Bool) (final_output : List String) :
    List String → St → Except Err Unit × St
  | [], st => (.ok (), st)
  | file :: rest, st =>
    if final_output.contains file then (.error .assertionError, st)
    else cleanupLoop dryrun final_output rest (if dryrun then st else removeFile st file)

/-- The `clean >= 2 and final_output != scanned_files` cleanup block of
`scanbro`: delete every originally scanned file, asserting per file that it
is not among the deliverables. -/
def cleanupScans (clean : Nat) (dryrun : Bool) (final_output scanned_files : List String)
    (st : St) : Except Err Unit × St :=
  if 2 ≤ clean ∧ final_output ≠ scanned_files then
    cleanupLoop dryrun final_output scanned_files st
  else (.ok (), st)

/-- `scanbro(scanner, pipeline, output_name, clean, trim, batch, dryrun)`:
acquire (forcing a rescan iff `clean >= 3`), thread the file set through the
pipeline, strip the stage suffixes by the final rename, and clean up the
original scan files. -/
def scanbro (env : Env) (sc : ScannerM) (cfg : Cfg) (pipeline : List Stage)
    (output_name : String) (clean : Nat) (trim batch dryrun : Bool)
    (inputs : List String) (st : St) : Except Err (List String) × St :=
  match Scanner.scan env sc cfg output_name (decide (3 ≤ clean)) trim batch dryrun inputs st with
  | (.error e, st1) => (.error e, st1)
  | (.ok scanned_files, st1) =>
    match pipeline with
    | [] => (.ok scanned_files, st1)
    | p0 :: ps =>
      match pipelineLoop clean dryrun (p0 :: ps) 0 none scanned_files st1 with
      | (.error e, st2) => (.error e, st2)
      | (.ok input_files, st2) =>
        let final_suffix := ((p0 :: ps).getLast (List.cons_ne_nil p0 ps)).filetype
        let (final_output, st3) := renamePhase output_name final_suffix dryrun input_files st2
        match cleanupScans clean dryrun final_output scanned_files st3 with
        | (.error e, st4) => (.error e, st4)
        | (.ok _, st4) => (.ok final_output, st4)

/-- Execution order of the filter registry of `__main__` (a Python dict
preserves insertion order). -/
def FILTERS : List String :=
  ["imagemagick", "unpaper", "tesseract", "ghostscript"]

/-- The `--auto` block of `__main__`: force-extend the selected filters. -/
def applyAutoFilters (auto : Bool) (filters : List String) : List String :=
  if auto then filters ++ ["tesseract", "ghostscript"] else filters

/-- The unpaper block of `__main__`: when `unpaper` is selected, append
`imagemagick` for the PNM-to-PNG conversion. -/
def applyUnpaperRule (filters : List String) : List String :=
  if filters.contains "unpaper" then filters ++ ["imagemagick"] else filters

/-- The fully adjusted `args.filters` list after both `__main__` blocks. -/
def mainFilters (auto : Bool) (filters : List String) : List String :=
  applyUnpaperRule (applyAutoFilters auto filters)

/-- The pipeline of `__main__`, by filter name: registry order restricted to
the selected filters (`[ FILTERS[f](args) for f in FILTERS if f in
args.filters ]`). -/
def mainPipeline (auto : Bool) (filters : List String) : List String :=
  FILTERS.filter (fun f => (mainFilters auto filters).contains f)

/-- The scanner output file type chosen by `make_scanner`: `pnm` when
`unpaper` is among the (adjusted) filters, else the `Scanner` class default
`tiff`. -/
def make_scanner_filetype (filters : List String) : String :=
  if filters.contains "unpaper" then "pnm" else "tiff"

/-- `Processor.__init__`: fatal unless `shutil.which` finds the binary.
`which` is the environment's executable lookup. -/
def processorInit (which : String → Bool) (binary : String) : Except Err Unit :=
  if which binary then .ok () else .error (.missingExecutable binary)

/-- `Unpaper` construction (inherits `Processor.__init__`, binary
`unpaper`). -/
def Unpaper.init (which : String → Bool) : Except Err Unit :=
  processorInit which "unpaper"

/-- `Tesseract.__init__`: runs `Processor.__init__` (binary `tesseract`),
then stores the language. -/
def Tesseract.init (which : String → Bool) (language : String) : Except Err Unit :=
  processorInit which "tesseract"

/-- `ImageMagick.__init__`: runs `Processor.__init__` (binary `convert`),
then stores profile and quality. -/
def ImageMagick.init (which : String → Bool) (profile quality : Option String) :
    Except Err Unit :=
  processorInit which "convert"

/-- `Scanner.__init__`: runs `Processor.__init__` (binary `scanimage`), then
stores the config. -/
def Scanner.init (which : String → Bool) : Except Err Unit :=
  processorInit which "scanimage"

/-- `Ghostscript.__init__`: stores profile and benchmark flags only — it does
not call `Processor.__init__`, so no executable check happens here. -/
def Ghostscript.init (which : String → Bool) (profile : String) (benchmark : Bool) :
    Except Err Unit :=
  .ok ()

/-- Fixture: the Brother scanner instance as `make_scanner` builds it with
default options (`Scanner.filetype = 'tiff'`). -/
def brotherScanner : ScannerM :=
  { name := "Brother MFC-J5730DW", binary := "scanimage", filetype := "tiff" }

/-- Fixture: a config whose `source` key is unset (`is_adf` holds). -/
def cfgDefault : Cfg := { source := none, papersize := none }

/-- Fixture: the empty initial world. -/
def stInit : St := { fs := [], removed := [], spawns := [], moved := [] }

/-- Fixture: a Tesseract pipeline stage (single input, single output,
produces `pdf`). -/
def tesseractStage : Stage :=
  { binary := "tesseract", filetype := "pdf", multiple_in := false, multiple_out := false }

/-- Fixture: a Ghostscript pipeline stage (multiple inputs, single output,
produces `pdf`). -/
def ghostscriptStage : Stage :=
  { binary := "gs", filetype := "pdf", multiple_in := true, multiple_out := false }

/-- The enumeration loop, started anywhere: if the `n` pages numbered
`index .. index + n - 1` exist and page `index + n` does not, the loop
returns exactly those `n` pages, whatever else the filesystem holds. -/
lemma outputLoop_spec (fs : List String) (proto : String) :
    ∀ (n index fuel : Nat),
      (∀ i, index ≤ i → i < index + n → fmtD proto i ∈ fs) →
      fmtD proto (index + n) ∉ fs →
      n < fuel →
      outputLoop fs proto fuel index = (List.range' index n).map (fmtD proto) := by
  intro n
  induction n with
  | zero =>
    intro index fuel hin hout hf
    match fuel, hf with
    | f + 1, _ =>
      rw [Nat.add_zero] at hout
      simp [outputLoop, hout]
  | succ n ih =>
    intro index fuel hin hout hf
    match fuel, hf with
    | f + 1, hf =>
      have h0 : fmtD proto index ∈ fs := hin index le_rfl (by omega)
      have ihx := ih (index + 1) f
        (fun i h1 h2 => hin i (by omega) (by omega))
        (by rw [show index + 1 + n = index + (n + 1) by omega]; exact hout)
        (by omega)
      simp only [outputLoop]
      rw [if_pos (by simpa using h0), ihx]
      rfl

/-- Acquisition never deletes: a single `scan_once` leaves the removal log
untouched. -/
lemma scan_once_removed (env : Env) (sc : ScannerM) (clobber : Bool) (cfg : Cfg)
    (output_file : String) (st : St) :
    (scan_once env sc clobber cfg output_file st).2.removed = st.removed := by
  unfold scan_once
  dsimp only
  split_ifs <;> rfl

/-- Acquisition never deletes: the batch loop leaves the removal log
untouched. -/
lemma batchLoop_removed (env : Env) (sc : ScannerM) (clobber : Bool) (output_file : String) :
    ∀ (fuel iteration : Nat) (cfg : Cfg) (inputs acc : List String) (st : St),
      (batchLoop env sc clobber output_file fuel iteration cfg inputs acc st).2.removed
        = st.removed := by
  intro fuel
  induction fuel with
  | zero => intro iteration cfg inputs acc st; rfl
  | succ f ih =>
    intro iteration cfg inputs acc st
    simp only [batchLoop]
    rcases h : scan_once env sc clobber cfg
        (with_presuffix output_file ("batch-" ++ Nat.repr (iteration + 1))) st with ⟨r, st1⟩
    have hr : st1.removed = st.removed := by
      have h2 := scan_once_removed env sc clobber cfg
        (with_presuffix output_file ("batch-" ++ Nat.repr (iteration + 1))) st
      rw [h] at h2
      exact h2
    cases r with
    | error e => exact hr
    | ok batch_output =>
      cases hm : menuLoop inputs cfg with
      | error e => exact hr
      | ok t =>
        obtain ⟨answer, cfg1, inputs1⟩ := t
        dsimp only
        split
        · exact hr
        · rw [ih]; exact hr

/-- Acquisition never deletes: `scanAcquire` leaves the removal log
untouched. -/
lemma scanAcquire_removed (env : Env) (sc : ScannerM) (cfg : Cfg) (output_file : String)
    (clobber batch : Bool) (inputs : List String) (st : St) :
    (scanAcquire env sc cfg output_file clobber batch inputs st).2.removed = st.removed := by
  unfold scanAcquire
  split
  · exact batchLoop_removed env sc clobber output_file (inputs.length + 1) 0 cfg inputs [] st
  · exact scan_once_removed env sc clobber cfg output_file st

/-- A successful `Scanner.scan` with `trim=False` exposes the result of the
acquisition part: the acquired list is the returned one, it is non-empty,
and the state is the acquisition state. -/
lemma scan_trim_false (env : Env) (sc : ScannerM) (cfg : Cfg) (output_file0 : String)
    (clobber batch dryrun : Bool) (inputs : List String) (st : St)
    (acc : List String) (st' : St)
    (h : Scanner.scan env sc cfg output_file0 clobber false batch dryrun inputs st
        = (.ok acc, st')) :
    scanAcquire env sc cfg (with_suffix output_file0 sc.filetype) clobber batch inputs st
      = (.ok acc, st') ∧ acc ≠ [] := by
  simp only [Scanner.scan] at h
  rcases hA : scanAcquire env sc cfg (with_suffix output_file0 sc.filetype) clobber batch inputs st
    with ⟨r, st1⟩
  rw [hA] at h
  cases r with
  | error e => exact absurd h (by simp)
  | ok files =>
    dsimp only at h
    by_cases hn : files.length = 0
    · rw [if_pos hn] at h
      exact absurd h (by simp)
    · rw [if_neg hn] at h
      simp only [Bool.false_eq_true, if_false] at h
      rw [Prod.mk.injEq] at h
      obtain ⟨h1, h2⟩ := h
      injection h1 with h1
      subst h1 h2
      exact ⟨rfl, fun he => hn (by rw [he]; rfl)⟩

/-- The indexed rename loop produces exactly the dot-separated indexed
names `with_suffix(output_name, str(i) + '.' + final_suffix)` for `i`
counting on from `index + 1`. -/
lemma renameMany_names (output_name final_suffix : String) (dryrun : Bool) :
    ∀ (files : List String) (index : Nat) (st : St),
      (renameMany output_name final_suffix dryrun files index st).1
        = (List.range' (index + 1) files.length).map
            (fun i => with_suffix output_name (Nat.repr i ++ "." ++ final_suffix)) := by
  intro files
  induction files with
  | nil => intro index st; rfl
  | cons file rest ih =>
    intro index st
    simp only [renameMany, ih]
    rfl

/-- The indexed rename loop moves each file to the corresponding produced
name, in order. -/
lemma renameMany_moved (output_name final_suffix : String) :
    ∀ (files : List String) (index : Nat) (st : St),
      (renameMany output_name final_suffix false files index st).2.moved
        = st.moved ++ files.zip (renameMany output_name final_suffix false files index st).1 := by
  intro files
  induction files with
  | nil => intro index st; simp [renameMany]
  | cons file rest ih =>
    intro index st
    simp only [renameMany, ih, move_file, moveEffect]
    simp [List.zip_cons_cons]

/-- Under a disjoint deliverable set, the final cleanup loop removes every
scanned file, in order, and succeeds. -/
lemma cleanupLoop_disjoint (final_output : List String) :
    ∀ (scanned : List String) (st : St),
      (∀ f ∈ scanned, final_output.contains f = false) →
      cleanupLoop false final_output scanned st = (.ok (), scanned.foldl removeFile st) := by
  intro scanned
  induction scanned with
  | nil => intro st _; rfl
  | cons f rest ih =>
    intro st hdisj
    have hf : final_output.contains f = false := hdisj f (List.mem_cons_self f rest)
    simp only [cleanupLoop, hf, Bool.false_eq_true, if_false]
    exact ih (removeFile st f) (fun g hg => hdisj g (List.mem_cons_of_mem f hg))

/-- If any scanned file is also a deliverable, the final cleanup loop hits
the per-file assertion. -/
lemma cleanupLoop_overlap (final_output : List String) :
    ∀ (scanned : List String) (st : St),
      (∃ f ∈ scanned, final_output.contains f = true) →
      (cleanupLoop false final_output scanned st).1 = .error .assertionError := by
  intro scanned
  induction scanned with
  | nil => intro st h; obtain ⟨f, hf, _⟩ := h; exact absurd hf (List.not_mem_nil f)
  | cons f rest ih =>
    intro st h
    by_cases hf : final_output.contains f = true
    · simp only [cleanupLoop, hf, if_true]
    · simp only [cleanupLoop, hf, if_false]
      obtain ⟨g, hg, hgin⟩ := h
      rcases List.mem_cons.mp hg with hgf | hgrest
      · exact absurd (hgf ▸ hgin) hf
      · exact ih _ ⟨g, hgrest, hgin⟩

/-- Folding `removeFile` over a list appends exactly that list to the
removal log. -/
lemma foldl_removeFile_removed :
    ∀ (files : List String) (st : St),
      (files.foldl removeFile st).removed = st.removed ++ files := by
  intro files
  induction files with
  | nil => intro st; simp
  | cons f rest ih =>
    intro st
    simp only [List.foldl_cons, ih, removeFile]
    simp

/-- Claim C1 (bug evaluation).  With the 4-page output file set of a prior
run already on disk, `clobber=False` and `trim=True`, `Scanner.scan`
performs no new scan, yet — because the `trim = False` assignment in
`scan_once` binds a fresh local instead of the enclosing flag — it still
deletes the fourth cached page and returns only three files; the identical
repeated call then fails with the trim-arity error instead of returning an
identical set.  This contradicts the claimed reuse behaviour (identical set,
zero deletions, trimming disabled). -/
theorem claim_C1 :
    Scanner.scan { device := fun _ => 0 } brotherScanner cfgDefault "name"
        false true false false []
        { fs := ["name.1.tiff", "name.2.tiff", "name.3.tiff", "name.4.tiff"],
          removed := [], spawns := [], moved := [] }
      = (.ok ["name.1.tiff", "name.2.tiff", "name.3.tiff"],
         { fs := ["name.1.tiff", "name.2.tiff", "name.3.tiff"],
           removed := ["name.4.tiff"], spawns := [], moved := [] })
    ∧ (Scanner.scan { device := fun _ => 0 } brotherScanner cfgDefault "name"
        false true false false []
        { fs := ["name.1.tiff", "name.2.tiff", "name.3.tiff"],
          removed := ["name.4.tiff"], spawns := [], moved := [] }).1
      = .error .trimTooFew :=
  ⟨rfl, rfl⟩

/-- Claim C2 (bug evaluation).  A `dryrun=True` run of `scanbro` with a
fresh 5-page ADF acquisition and `trim=True` spawns the scanner process for
real (the `scanner.process(None, output_file)` call inside `scan_once`
omits the `dryrun` argument) and really deletes the fifth page (the trim
`os.remove` is not guarded by `dryrun`), contradicting the claim that no
process is spawned and no file is deleted in dry-run mode. -/
theorem claim_C2 :
    scanbro { device := fun _ => 5 } brotherScanner cfgDefault [] "name" 0 true false true []
        stInit
      = (.ok ["name.1.tiff", "name.2.tiff", "name.3.tiff", "name.4.tiff"],
         { fs := ["name.1.tiff", "name.2.tiff", "name.3.tiff", "name.4.tiff"],
           removed := ["name.5.tiff"], spawns := ["scanimage"], moved := [] }) :=
  rfl

/-- Claim C3 (counterexample).  A 2-page ADF scan through one 1:1 stage
yields deliverables `name.1.pdf`, `name.2.pdf`: the 1-based index is
separated from the output name by a dot (`with_suffix` inserts `.1.pdf` as
the new extension), not directly concatenated as `name1.pdf`. -/
theorem claim_C3_cex :
    (scanbro { device := fun _ => 2 } brotherScanner cfgDefault [tesseractStage] "name" 0
        false false false [] stInit).1
      = .ok ["name.1.pdf", "name.2.pdf"]
    ∧ ["name.1.pdf", "name.2.pdf"] ≠ ["name1.pdf", "name2.pdf"] :=
  ⟨rfl, by decide⟩

/-- Claim C3 (amended).  After the last stage, when several files survive,
file number `i` (1-based) is moved to
`with_suffix(output_name, str(i) + '.' + final_suffix)` — the index joined
to the output name by a dot — and when exactly one survives it is moved to
`with_suffix(output_name, final_suffix)`; in both cases every surviving
file is moved to its corresponding produced name. -/
theorem claim_C3 (output_name final_suffix : String) (files : List String) (st : St) :
    (2 ≤ files.length →
      (renamePhase output_name final_suffix false files st).1
        = (List.range' 1 files.length).map
            (fun i => with_suffix output_name (Nat.repr i ++ "." ++ final_suffix))
      ∧ (renamePhase output_name final_suffix false files st).2.moved
        = st.moved ++ files.zip (renamePhase output_name final_suffix false files st).1)
    ∧ (files.length = 1 →
      (renamePhase output_name final_suffix false files st).1
        = [with_suffix output_name final_suffix]
      ∧ (renamePhase output_name final_suffix false files st).2.moved
        = st.moved ++ files.zip (renamePhase output_name final_suffix false files st).1) := by
  constructor
  · intro hlen
    have hne : ¬ files.length = 1 := by omega
    simp only [renamePhase, hne, if_false]
    exact ⟨renameMany_names output_name final_suffix false files 0 st,
           renameMany_moved output_name final_suffix files 0 st⟩
  · intro hlen
    match files, hlen with
    | [f], _ =>
      simp only [renamePhase, if_pos rfl, List.headD]
      simp [move_file, moveEffect]

/-- Claim C3 (witness). -/
theorem claim_C3_witness :
    (renamePhase "name" "pdf" false ["a.x", "b.x"] stInit).1 = ["name.1.pdf", "name.2.pdf"] := by
  have h := ((claim_C3 "name" "pdf" ["a.x", "b.x"] stInit).1 (by decide)).1
  rw [h]
  rfl

/-- Claim C4 (bug evaluation).  A pipeline whose first stage accepts
multiple inputs (scenario C: 5-page ADF scan, trim, one many-to-one stage)
does not produce one deliverable: the log line of the many-input branch
reads the local variable `prototype`, which is only ever assigned in the
single-input branch, so the run dies with `UnboundLocalError` before the
stage is invoked. -/
theorem claim_C4 :
    (scanbro { device := fun _ => 5 } brotherScanner cfgDefault [ghostscriptStage] "name" 0
        true false false [] stInit).1
      = .error .unboundLocalPrototype :=
  rfl

/-- Claim C5 (counterexample).  A fresh 3-page scan with `trim=True` does
not return the full set with a no-op notice: `Scanner.scan` raises
`"trim expects at least 4 scan files"`. -/
theorem claim_C5_cex :
    (Scanner.scan { device := fun _ => 3 } brotherScanner cfgDefault "name"
        false true false false [] stInit).1
      = .error .trimTooFew :=
  rfl

/-- Claim C5 (amended).  Whenever an acquisition would succeed with exactly
2 or 3 files (the `trim=False` run returns them), requesting `trim=True`
instead raises the fatal `"trim expects at least 4 scan files"` error; no
file is deleted (the removal log is exactly that of the acquisition, which
never deletes). -/
theorem claim_C5 (env : Env) (sc : ScannerM) (cfg : Cfg) (output_file0 : String)
    (clobber batch dryrun : Bool) (inputs : List String) (st : St)
    (acc : List String) (st' : St)
    (h : Scanner.scan env sc cfg output_file0 clobber false batch dryrun inputs st
        = (.ok acc, st'))
    (hn : acc.length = 2 ∨ acc.length = 3) :
    Scanner.scan env sc cfg output_file0 clobber true batch dryrun inputs st
      = (.error .trimTooFew, st')
    ∧ st'.removed = st.removed := by
  obtain ⟨hA, hne⟩ := scan_trim_false env sc cfg output_file0 clobber batch dryrun inputs st
    acc st' h
  constructor
  · simp only [Scanner.scan, hA]
    have h0 : ¬ acc.length = 0 := by omega
    have h1 : ¬ acc.length = 1 := by omega
    have h4 : acc.length < 4 := by omega
    simp [h0, h1, h4]
  · have := scanAcquire_removed env sc cfg (with_suffix output_file0 sc.filetype)
      clobber batch inputs st
    rw [hA] at this
    exact this

/-- Claim C5 (witness). -/
theorem claim_C5_witness :
    Scanner.scan { device := fun _ => 3 } brotherScanner cfgDefault "name"
        false true false false [] stInit
      = (.error .trimTooFew,
         { fs := ["name.1.tiff", "name.2.tiff", "name.3.tiff"],
           removed := [], spawns := ["scanimage"], moved := [] }) :=
  (claim_C5 { device := fun _ => 3 } brotherScanner cfgDefault "name" false false false [] stInit
    ["name.1.tiff", "name.2.tiff", "name.3.tiff"]
    { fs := ["name.1.tiff", "name.2.tiff", "name.3.tiff"],
      removed := [], spawns := ["scanimage"], moved := [] }
    rfl (Or.inr rfl)).1

/-- Claim C6 (counterexample).  `Ghostscript.__init__` does not call
`Processor.__init__`, so constructing the Ghostscript stage succeeds even
when no executable at all can be found — the claimed abort at stage
construction does not happen for this stage. -/
theorem claim_C6_cex :
    Ghostscript.init (fun _ => false) "high" false = .ok () :=
  rfl

/-- Claim C6 (amended).  A missing external executable is a fatal fault at
stage construction for the scanner and for the Unpaper, Tesseract and
ImageMagick filters (all of which run `Processor.__init__`), but not for
Ghostscript, whose constructor skips the executable check entirely. -/
theorem claim_C6 (which : String → Bool) :
    (which "unpaper" = false →
      Unpaper.init which = .error (.missingExecutable "unpaper"))
    ∧ (∀ language, which "tesseract" = false →
      Tesseract.init which language = .error (.missingExecutable "tesseract"))
    ∧ (∀ profile quality, which "convert" = false →
      ImageMagick.init which profile quality = .error (.missingExecutable "convert"))
    ∧ (which "scanimage" = false →
      Scanner.init which = .error (.missingExecutable "scanimage"))
    ∧ (∀ profile benchmark, Ghostscript.init which profile benchmark = .ok ()) := by
  refine ⟨?_, ?_, ?_, ?_, fun _ _ => rfl⟩ <;> intros <;>
    simp_all [Unpaper.init, Tesseract.init, ImageMagick.init, Scanner.init, processorInit]

/-- Claim C6 (witness). -/
theorem claim_C6_witness :
    Unpaper.init (fun _ => false) = .error (.missingExecutable "unpaper") :=
  (claim_C6 (fun _ => false)).1 rfl

/-- Claim C7.  After the final rename, with cleanup level at least 2 and a
deliverable list different from the originally scanned list: if the two
sets are disjoint, the cleanup block succeeds and deletes exactly every
originally scanned file; if some file lies in both sets, the per-file
assertion makes it a fatal fault; and with level below 2 or identical
lists, the block deletes nothing and succeeds. -/
theorem claim_C7 (clean : Nat) (final_output scanned_files : List String) (st : St) :
    (2 ≤ clean → final_output ≠ scanned_files →
      (∀ f ∈ scanned_files, final_output.contains f = false) →
      (cleanupScans clean false final_output scanned_files st).1 = .ok ()
      ∧ (cleanupScans clean false final_output scanned_files st).2.removed
          = st.removed ++ scanned_files)
    ∧ (2 ≤ clean → final_output ≠ scanned_files →
      (∃ f ∈ scanned_files, final_output.contains f = true) →
      (cleanupScans clean false final_output scanned_files st).1 = .error .assertionError)
    ∧ (clean < 2 ∨ final_output = scanned_files →
      cleanupScans clean false final_output scanned_files st = (.ok (), st)) := by
  refine ⟨?_, ?_, ?_⟩
  · intro hc hne hdisj
    have hrun : cleanupScans clean false final_output scanned_files st
        = cleanupLoop false final_output scanned_files st := by
      simp only [cleanupScans, if_pos (And.intro hc hne)]
    rw [hrun, cleanupLoop_disjoint final_output scanned_files st hdisj]
    exact ⟨rfl, foldl_removeFile_removed scanned_files st⟩
  · intro hc hne hover
    have hrun : cleanupScans clean false final_output scanned_files st
        = cleanupLoop false final_output scanned_files st := by
      simp only [cleanupScans, if_pos (And.intro hc hne)]
    rw [hrun]
    exact cleanupLoop_overlap final_output scanned_files st hover
  · intro h
    have : ¬ (2 ≤ clean ∧ final_output ≠ scanned_files) := by
      rcases h with h | h
      · exact fun hh => absurd hh.1 (by omega)
      · exact fun hh => hh.2 h
    simp only [cleanupScans, if_neg this]

/-- Claim C7 (witness). -/
theorem claim_C7_witness :
    (cleanupScans 2 false ["out.pdf"] ["scan.1.tiff", "scan.2.tiff"] stInit).1 = .ok ()
    ∧ (cleanupScans 2 false ["out.pdf"] ["scan.1.tiff", "scan.2.tiff"] stInit).2.removed
        = stInit.removed ++ ["scan.1.tiff", "scan.2.tiff"] :=
  (claim_C7 2 ["out.pdf"] ["scan.1.tiff", "scan.2.tiff"] stInit).1
    (by decide) (by decide) (by decide)

/-- Claim C8.  ADF enumeration is contiguous and monotone: with pages
1..k present and page k+1 absent, `Scanner.output` returns exactly the k
files numbered 1..k in increasing order (stale higher-numbered files are
never consulted); flatbed enumeration returns a singleton iff the literal
path exists.  The fuel argument only totalizes the Python `while` loop and
any value above k works. -/
theorem claim_C8 (fs : List String) (proto flat : String) (k fuel : Nat)
    (hADF : containsPercentD proto.data = true)
    (hpages : ∀ i, i ≤ k → 1 ≤ i → fmtD proto i ∈ fs)
    (hgap : fmtD proto (k + 1) ∉ fs)
    (hfuel : k < fuel) :
    Scanner.output true fs proto fuel = (List.range' 1 k).map (fmtD proto)
    ∧ Scanner.output false fs flat fuel = (if fs.contains flat then [flat] else []) := by
  constructor
  · simp only [Scanner.output, if_pos rfl]
    exact outputLoop_spec fs proto k 1 fuel
      (fun i h1 h2 => hpages i (by omega) h1)
      (by rw [show 1 + k = k + 1 by omega]; exact hgap)
      hfuel
  · rfl

/-- Claim C8 (witness): pages 1 and 2 present, page 3 absent, a stale page
4 on disk is ignored. -/
theorem claim_C8_witness :
    Scanner.output true ["p.1.t", "p.2.t", "p.4.t"] "p.%d.t" 9
        = (List.range' 1 2).map (fmtD "p.%d.t")
    ∧ Scanner.output false ["p.1.t", "p.2.t", "p.4.t"] "p.1.t" 9
        = (if (["p.1.t", "p.2.t", "p.4.t"] : List String).contains "p.1.t"
           then ["p.1.t"] else []) :=
  claim_C8 ["p.1.t", "p.2.t", "p.4.t"] "p.%d.t" "p.1.t" 2 9
    (by decide) (by decide) (by decide) (by decide)

/-- Claim C9.  Whenever `unpaper` is among the selected filters, `__main__`
appends `imagemagick` to the filter list — so the ImageMagick stage is part
of the executed pipeline even if the user never asked for it — and
`make_scanner` switches the scanner's output file type to `pnm`. -/
theorem claim_C9 (auto : Bool) (filters : List String)
    (h : filters.contains "unpaper" = true) :
    (mainPipeline auto filters).contains "imagemagick" = true
    ∧ make_scanner_filetype (mainFilters auto filters) = "pnm" := by
  have hmem : "unpaper" ∈ filters := by simpa using h
  have h1 : "unpaper" ∈ applyAutoFilters auto filters := by
    unfold applyAutoFilters
    split
    · exact List.mem_append_left _ hmem
    · exact hmem
  have h3 : mainFilters auto filters = applyAutoFilters auto filters ++ ["imagemagick"] := by
    unfold mainFilters applyUnpaperRule
    rw [if_pos (by simpa using h1)]
  have h4 : "imagemagick" ∈ mainFilters auto filters := by
    rw [h3]
    exact List.mem_append_right _ (by simp)
  constructor
  · have : "imagemagick" ∈ mainPipeline auto filters := by
      unfold mainPipeline
      exact List.mem_filter.mpr ⟨by simp [FILTERS], by simpa using h4⟩
    simpa using this
  · have h5 : "unpaper" ∈ mainFilters auto filters := by
      rw [h3]
      exact List.mem_append_left _ h1
    unfold make_scanner_filetype
    rw [if_pos (by simpa using h5)]

/-- Claim C9 (witness). -/
theorem claim_C9_witness :
    (mainPipeline false ["unpaper"]).contains "imagemagick" = true
    ∧ make_scanner_filetype (mainFilters false ["unpaper"]) = "pnm" :=
  claim_C9 false ["unpaper"] (by decide)

/-- Claim C10 (counterexample).  Batch run of two batches where the first
feeds 4 pages and the second feeds none, with `trim=True`: the one file
removed is `name.batch-1.4.tiff`, a file of the *first* batch — the final
batch contributed no files at all (its enumeration over the final
filesystem is empty) — contradicting the claim that the removed file is the
last file of the final batch. -/
theorem claim_C10_cex :
    Scanner.scan { device := fun k => if k = 0 then 4 else 0 } brotherScanner cfgDefault
        "name" false true true false ["c", "f"] stInit
      = (.ok ["name.batch-1.1.tiff", "name.batch-1.2.tiff", "name.batch-1.3.tiff"],
         { fs := ["name.batch-1.1.tiff", "name.batch-1.2.tiff", "name.batch-1.3.tiff"],
           removed := ["name.batch-1.4.tiff"], spawns := ["scanimage", "scanimage"],
           moved := [] })
    ∧ Scanner.output true
        ["name.batch-1.1.tiff", "name.batch-1.2.tiff", "name.batch-1.3.tiff"]
        "name.batch-2.%d.tiff" 9
      = [] :=
  ⟨rfl, rfl⟩

/-- Claim C10 (amended).  In batch mode the trim policy runs exactly once,
after the batch loop, against the accumulated master list: whenever the
`trim=False` batch run would return the accumulated list `acc`, the
`trim=True` run returns `acc` minus its last element with exactly that one
extra removal when `acc` has at least 4 files, and raises the 1-file or
fewer-than-4-files error — judged on the accumulated total — otherwise. -/
theorem claim_C10 (env : Env) (sc : ScannerM) (cfg : Cfg) (output_file0 : String)
    (clobber dryrun : Bool) (inputs : List String) (st : St)
    (acc : List String) (st' : St)
    (h : Scanner.scan env sc cfg output_file0 clobber false true dryrun inputs st
        = (.ok acc, st')) :
    (4 ≤ acc.length →
      Scanner.scan env sc cfg output_file0 clobber true true dryrun inputs st
        = (.ok acc.dropLast, removeFile st' (acc.getLast?.getD "")))
    ∧ (acc.length = 1 →
      Scanner.scan env sc cfg output_file0 clobber true true dryrun inputs st
        = (.error .cannotTrimOnly, st'))
    ∧ ((acc.length = 2 ∨ acc.length = 3) →
      Scanner.scan env sc cfg output_file0 clobber true true dryrun inputs st
        = (.error .trimTooFew, st'))
    ∧ st'.removed = st.removed := by
  obtain ⟨hA, hne⟩ := scan_trim_false env sc cfg output_file0 clobber true dryrun inputs st
    acc st' h
  refine ⟨?_, ?_, ?_, ?_⟩
  · intro hlen
    simp only [Scanner.scan, hA]
    have h0 : ¬ acc.length = 0 := by omega
    have h1 : ¬ acc.length = 1 := by omega
    have h4 : ¬ acc.length < 4 := by omega
    simp [h0, h1, h4]
  · intro hlen
    simp only [Scanner.scan, hA]
    simp [hlen]
  · intro hlen
    simp only [Scanner.scan, hA]
    have h0 : ¬ acc.length = 0 := by omega
    have h1 : ¬ acc.length = 1 := by omega
    have h4 : acc.length < 4 := by omega
    simp [h0, h1, h4]
  · have := scanAcquire_removed env sc cfg (with_suffix output_file0 sc.filetype)
      clobber true inputs st
    rw [hA] at this
    exact this

/-- Claim C10 (witness): one batch of 4 pages, finish, trim. -/
theorem claim_C10_witness :
    Scanner.scan { device := fun _ => 4 } brotherScanner cfgDefault "name"
        false true true false ["f"] stInit
      = (.ok ["name.batch-1.1.tiff", "name.batch-1.2.tiff", "name.batch-1.3.tiff"],
         removeFile
           { fs := ["name.batch-1.1.tiff", "name.batch-1.2.tiff", "name.batch-1.3.tiff",
                    "name.batch-1.4.tiff"],
             removed := [], spawns := ["scanimage"], moved := [] }
           "name.batch-1.4.tiff") := by
  have h := ((claim_C10 { device := fun _ => 4 } brotherScanner cfgDefault "name"
      false false ["f"] stInit
      ["name.batch-1.1.tiff", "name.batch-1.2.tiff", "name.batch-1.3.tiff",
       "name.batch-1.4.tiff"]
      { fs := ["name.batch-1.1.tiff", "name.batch-1.2.tiff", "name.batch-1.3.tiff",
               "name.batch-1.4.tiff"],
        removed := [], spawns := ["scanimage"], moved := [] }
      rfl).1 (by decide))
  exact h

end Scanbro
